import Mathlib

/-!
Verification development for the MSM visualization pipeline
(visualize_final.py): a shallow embedding of the per-file
variable-resolution / accumulation / unit-conversion / frame-assembly
phase and of the parallel rendering scheduler, together with theorems
about the behaviours the specification describes.

Conventions of the embedding:
* a field ("Grid") is a flattened list of rational values; the parallel
  latitude/longitude coordinate arrays carried around by the script do
  not influence any of the control flow modelled here and are omitted;
* a cfgrib Dataset is modelled by its variable-name list, its optional
  step coordinate, its per-variable GRIB_stepType attribute (with the
  empty string as the `.attrs.get(.... , '')` default), and a field
  lookup function; `DataArray.sel(step=step)` is modelled as succeeding
  exactly when the step coordinate exists and holds the step (any other
  situation raises in xarray and every such raise is caught by a
  `continue` / `pass` in the script);
* numpy elementwise arithmetic is zipWith / map over the lists;
  `np.sqrt` is rendered by Rat.sqrt (no claim below depends on the
  value of a square root, only on which datasets supply the wind pair);
* the two `convert` lambdas of get_variable_config are carried as a
  small tag type interpreted by one pure function, keeping the
  configuration record first-order;
* rendering side effects (matplotlib, file writes) are abstracted into
  an oracle `RenderTask → Except String Unit`; the try/except wrapper
  of render_frame_task is the match that maps an error to `none`;
* `multiprocessing.Pool.imap` is modelled operationally: workers finish
  in an arbitrary arrival order, and the consumer yields, for each task
  index in submission order, the result buffered for that index.
-/

namespace GPV

/-- A 2-D field flattened to a list of rational gridpoint values. -/
abbrev Grid := List ℚ

/-- Model of one cfgrib dataset of a source file. -/
structure Dataset where
  /-- names in `ds.data_vars` -/
  data_vars : List String
  /-- `ds.step.values` when `'step' in ds.coords`, otherwise `none` -/
  step_coord : Option (List ℤ)
  /-- per-variable `GRIB_stepType` attribute, `""` when absent -/
  attr : String → String
  /-- field values of a variable at a step (meaningful when present) -/
  value : String → ℤ → Grid

/-- The bundle assembled for one step: canonical display name to field,
in insertion order (`plot_data` of the script). -/
abbrev Bundle := List (String × Grid)

/-- Per-file accumulation state (`prev_accum_values`): display name to
last raw field, most recent binding first. -/
abbrev AccumState := List (String × Grid)

/-- Test `s_name in ds.data_vars`. -/
def hasVar (ds : Dataset) (n : String) : Bool :=
  ds.data_vars.contains n

/-- The guard `'step' in ds.coords and step not in ds.step.values`. -/
def stepNotAvailable (ds : Dataset) (step : ℤ) : Bool :=
  match ds.step_coord with
  | some ss => !(ss.contains step)
  | none => false

/-- The guard comparing `GRIB_stepType` against a required stepType. -/
def flowMismatch (ds : Dataset) (n : String) (rst : Option String) : Bool :=
  match rst with
  | some f => ds.attr n != f
  | none => false

/-- Model of `ds[name].sel(step=step)`: succeeds exactly when the step
coordinate exists and contains the step. -/
def selVar (ds : Dataset) (n : String) (step : ℤ) : Option Grid :=
  match ds.step_coord with
  | some ss => if ss.contains step then some (ds.value n step) else none
  | none => none

/-- A dataset/alias pair passes every acceptance test of the standard
scalar scan: variable present, step available, required stepType
matched, selection succeeding. -/
def accepts (ds : Dataset) (n : String) (rst : Option String) (step : ℤ) : Bool :=
  hasVar ds n && !stepNotAvailable ds step && !flowMismatch ds n rst
    && (selVar ds n step).isSome

/-- The inner alias loop of the standard scalar scan (`for s_name in
cfg['source_names']` at a fixed dataset), including the step check, the
required-stepType check, and the exception-to-continue path of `sel`. -/
def findAliasInDS (ds : Dataset) (rst : Option String) (step : ℤ) :
    List String → Option (String × Grid)
  | [] => none
  | n :: rest =>
    if hasVar ds n then
      if stepNotAvailable ds step then findAliasInDS ds rst step rest
      else if flowMismatch ds n rst then findAliasInDS ds rst step rest
      else
        match selVar ds n step with
        | some g => some (n, g)
        | none => findAliasInDS ds rst step rest
    else findAliasInDS ds rst step rest

/-- The standard scalar resolution double loop of `main`: datasets in
collection order as the outer loop (`for ds in datasets`), aliases as
the inner loop, stopping at the first acceptance (`if found_ds:
break`). -/
def resolveStandard (names : List String) (rst : Option String) :
    List Dataset → ℤ → Option (String × Grid)
  | [], _ => none
  | ds :: rest, step =>
    match findAliasInDS ds rst step names with
    | some r => some r
    | none => resolveStandard names rst rest step

/-- The cloud-combination scan: for each dataset in order, for each of
the fixed layer names, collect the layer when the dataset has it and
its step coordinate holds the step. -/
def cloudLayers (dss : List Dataset) (step : ℤ) : List Grid :=
  dss.flatMap (fun ds =>
    ["lcc", "mcc", "hcc"].filterMap (fun cv =>
      if hasVar ds cv then
        match ds.step_coord with
        | some ss => if ss.contains step then some (ds.value cv step) else none
        | none => none
      else none))

/-- Model of `np.maximum.reduce`: left fold of elementwise max over the
collected layers, seeded with the first layer. -/
def maxReduce : List Grid → Grid
  | [] => []
  | g :: rest => rest.foldl (fun a b => List.zipWith max a b) g

/-- The wind-pair search: first dataset holding both `u10` and `v10`,
else both `u` and `v`; checked per dataset in collection order. -/
def findWindPair : List Dataset → Option (Dataset × String × String)
  | [] => none
  | ds :: rest =>
    if hasVar ds "u10" && hasVar ds "v10" then some (ds, "u10", "v10")
    else if hasVar ds "u" && hasVar ds "v" then some (ds, "u", "v")
    else findWindPair rest

/-- Wind speed resolution: select both components of the found pair at
the step and take the elementwise magnitude; a failing selection (the
KeyError path) omits the variable. -/
def resolveWind (dss : List Dataset) (step : ℤ) : Option Grid :=
  match findWindPair dss with
  | none => none
  | some (ds, un, vn) =>
    match selVar ds un step, selVar ds vn step with
    | some u, some v => some (List.zipWith (fun a b => Rat.sqrt (a * a + b * b)) u v)
    | _, _ => none

/-- Tag for the two magnitude-sniffing `convert` lambdas of
get_variable_config. -/
inductive ConvTag where
  | kelvinIfOver200
  | pascalIfOver80000
deriving DecidableEq

/-- Elementwise mean of a field, `np.nanmean` on a NaN-free field; on
the empty field the comparison against any threshold is false either
way (NaN there, 0 here). -/
def meanQ (g : Grid) : ℚ :=
  g.sum / (g.length : ℚ)

/-- Interpretation of the `convert` lambdas: temperature subtracts
273.15 when the mean exceeds 200, pressure divides by 100 when the mean
exceeds 80000, otherwise the field passes through unchanged. -/
def applyConvert : Option ConvTag → Grid → Grid
  | none, g => g
  | some ConvTag.kelvinIfOver200, g =>
    if meanQ g > 200 then g.map (fun x => x - 273.15) else g
  | some ConvTag.pascalIfOver80000, g =>
    if meanQ g > 80000 then g.map (fun x => x / 100) else g

/-- Per-canonical-variable configuration record (get_variable_config),
restricted to the fields that drive control flow. -/
structure VarConfig where
  source_names : List String
  convert : Option ConvTag := none
  is_accum : Bool := false
  required_stepType : Option String := none
  is_cloud : Bool := false

/-- Temperature configuration. -/
def tempCfg : VarConfig :=
  { source_names := ["t", "2t", "t2m"], convert := some ConvTag.kelvinIfOver200 }

/-- Pressure configuration. -/
def presCfg : VarConfig :=
  { source_names := ["prmsl", "msl", "sp"], convert := some ConvTag.pascalIfOver80000 }

/-- Humidity configuration. -/
def humCfg : VarConfig :=
  { source_names := ["r", "2r", "r2"] }

/-- Precipitation configuration: accumulation-flagged with required
stepType `accum`. -/
def precipCfg : VarConfig :=
  { source_names := ["precipitation", "tp", "apcp", "unknown"],
    is_accum := true, required_stepType := some "accum" }

/-- Wind speed configuration (resolved by the vector branch). -/
def windCfg : VarConfig :=
  { source_names := ["wind_speed"] }

/-- Cloud cover configuration: the alias list of the script holds the
pre-combined name and the three layer names, and the cloud flag enables
the combination fallback. -/
def cloudCfg : VarConfig :=
  { source_names := ["tcc", "lcc", "mcc", "hcc"], is_cloud := true }

/-- The canonical variables in the iteration order of
`var_configs.items()` (Python dict insertion order). -/
def varOrder : List (String × VarConfig) :=
  [("Temperature", tempCfg), ("Pressure", presCfg), ("Humidity", humCfg),
   ("Precipitation", precipCfg), ("Wind Speed", windCfg), ("Cloud Cover", cloudCfg)]

/-- One accumulation-tracker transition on raw field `r`: with a prior
raw value the emitted field is the elementwise difference with negative
entries clamped to zero; on first occurrence the emitted field is
zero-filled; in both cases the new stored value is the raw field. -/
def accumStep : Option Grid → Grid → Grid × Grid
  | some p, r =>
    (List.zipWith (fun c q => if c - q < 0 then 0 else c - q) r p, r)
  | none, r => (r.map (fun _ => 0), r)

/-- Fold of the accumulation tracker over a per-file sequence of raw
fields, returning the emitted deltas. -/
def runAccumDeltas : Option Grid → List Grid → List Grid
  | _, [] => []
  | st, r :: rest =>
    let (d, st2) := accumStep st r
    d :: runAccumDeltas (some st2) rest

/-- Resolution of one canonical variable at one step, dispatching as
`main` does: the wind branch on the display name, otherwise the
standard scalar double loop followed, for the cloud-flagged variable,
by the layer-combination fallback when nothing was found. -/
def resolveVar (dss : List Dataset) (step : ℤ) (name : String) (cfg : VarConfig) :
    Option Grid :=
  if name = "Wind Speed" then resolveWind dss step
  else
    match resolveStandard cfg.source_names cfg.required_stepType dss step with
    | some (_, g) => some g
    | none =>
      if cfg.is_cloud then
        let layers := cloudLayers dss step
        if layers.isEmpty then none else some (maxReduce layers)
      else none

/-- Cloud-cover resolution as the script performs it. -/
def resolveCloud (dss : List Dataset) (step : ℤ) : Option Grid :=
  resolveVar dss step "Cloud Cover" cloudCfg

/-- Modelled from the spec: the layer-combination policy of section 4.2
as written — first attempt only the single pre-combined source name
`tcc`, and only if that is absent collect the found layers and take
their elementwise maximum. The script's own cloud path differs (its
alias list also holds the layer names); this definition exists to be
compared against `resolveCloud`. -/
def resolveCloudSpec (dss : List Dataset) (step : ℤ) : Option Grid :=
  match resolveStandard ["tcc"] none dss step with
  | some (_, g) => some g
  | none =>
    let layers := cloudLayers dss step
    if layers.isEmpty then none else some (maxReduce layers)

/-- Assembly of the bundle of one step: iterate the canonical variables
in configuration order, resolve each, apply the accumulation tracker to
accumulation-flagged results (threading the per-file state), then the
unit conversion, collecting the surviving fields in order. -/
def buildStep (dss : List Dataset) (step : ℤ) (st0 : AccumState) :
    Bundle × AccumState :=
  varOrder.foldl
    (fun acc vc =>
      match resolveVar dss step vc.1 vc.2 with
      | none => acc
      | some g =>
        if vc.2.is_accum then
          let (d, raw) := accumStep (acc.2.lookup vc.1) g
          (acc.1 ++ [(vc.1, applyConvert vc.2.convert d)], (vc.1, raw) :: acc.2)
        else
          (acc.1 ++ [(vc.1, applyConvert vc.2.convert g)], acc.2))
    ([], st0)

/-- The union of declared step offsets over the datasets exposing a
step coordinate (`all_steps` of the script). -/
def allSteps (dss : List Dataset) : Finset ℤ :=
  dss.foldl
    (fun acc ds =>
      match ds.step_coord with
      | some ss => acc ∪ ss.toFinset
      | none => acc) ∅

/-- Step enumeration of a file: the sorted union of declared steps, or
the single default step 0 when the union is empty. -/
def enumerateSteps (dss : List Dataset) : List ℤ :=
  if allSteps dss = ∅ then [0] else (allSteps dss).sort (· ≤ ·)

/-- The per-file step loop: bundles for the enumerated steps in order,
threading the accumulation state from step to step. -/
def runSteps (dss : List Dataset) : List ℤ → AccumState → List (ℤ × Bundle)
  | [], _ => []
  | s :: rest, st =>
    let (b, st2) := buildStep dss s st
    (s, b) :: runSteps dss rest st2

/-- Processing of one file: enumerate its steps and build every bundle,
starting from the empty accumulation state created for the file. -/
def processFile (dss : List Dataset) : List (ℤ × Bundle) :=
  runSteps dss (enumerateSteps dss) []

/-- Zero-padding of a frame counter to four digits. -/
def zeroPad4 (n : ℕ) : String :=
  let s := toString n
  String.mk (List.replicate (4 - s.length) '0') ++ s

/-- Output artifact path of a frame counter. -/
def framePath (n : ℕ) : String :=
  "frames/frame_" ++ zeroPad4 n ++ ".png"

/-- One submitted rendering task (the tuple handed to
render_frame_task). -/
structure RenderTask where
  frame_index : ℕ
  plot_data : Bundle
  valid_time : String
  output_path : String
deriving DecidableEq

/-- Emission of tasks for the bundles of one file: a non-empty bundle
takes the next frame counter and becomes a task, an empty bundle is
skipped and consumes no counter. -/
def emitTasks : List (ℤ × Bundle) → ℕ → List RenderTask × ℕ
  | [], c => ([], c)
  | (s, b) :: rest, c =>
    if b.isEmpty then emitTasks rest c
    else
      let (ts, c2) := emitTasks rest (c + 1)
      (⟨c, b, "Step " ++ toString s, framePath c⟩ :: ts, c2)

/-- The single-threaded assembly loop over the files, threading the
global frame counter. -/
def assembleFrom : List (List Dataset) → ℕ → List RenderTask × ℕ
  | [], c => ([], c)
  | f :: rest, c =>
    let (ts, c2) := emitTasks (processFile f) c
    let (ts2, c3) := assembleFrom rest c2
    (ts ++ ts2, c3)

/-- The complete ordered task list built before any parallel work. -/
def assembleTasks (files : List (List Dataset)) : List RenderTask :=
  (assembleFrom files 0).1

/-- The rendering worker: an empty bundle returns the no-artifact
sentinel; otherwise the fallible rendering (the oracle) is attempted
and any failure is caught and reported as the sentinel, never
propagated — success returns the artifact path. -/
def renderFrameTask (oracle : RenderTask → Except String Unit) (t : RenderTask) :
    Option String :=
  if t.plot_data.isEmpty then none
  else
    match oracle t with
    | Except.ok _ => some t.output_path
    | Except.error _ => none

/-- Collection of a batch in submission order with the sentinel
results dropped (the `if result: generated_frames.append(result)`
loop applied to the in-order stream). -/
def runBatch (oracle : RenderTask → Except String Unit)
    (tasks : List RenderTask) : List String :=
  tasks.filterMap (renderFrameTask oracle)

/-- Worker completions in arrival order: each arriving worker carries
its task index and its result. -/
def completions (worker : RenderTask → Option String) (tasks : List RenderTask)
    (arrival : List (Fin tasks.length)) : List (ℕ × Option String) :=
  arrival.map (fun i => (i.val, worker (tasks.get i)))

/-- The imap consumer: for each task index in submission order, the
result buffered for that index (outer `none` would mean a never
completed index, impossible when every index arrives). -/
def imapYield (n : ℕ) (results : List (ℕ × Option String)) :
    List (Option (Option String)) :=
  (List.range n).map (fun i => (results.find? (fun p => p.1 == i)).map (fun p => p.2))

/-- The result-collection loop of `main` over the imap stream: truthy
results are appended in stream order. -/
def schedulerEmit (worker : RenderTask → Option String) (tasks : List RenderTask)
    (arrival : List (Fin tasks.length)) : List String :=
  (imapYield tasks.length (completions worker tasks arrival)).foldl
    (fun acc r =>
      match r with
      | some (some s) => acc ++ [s]
      | _ => acc) []

/-! Concrete fixtures used by witnesses and counterexamples. -/

/-- A dataset carrying only alias `a` (values 9) at step 0. -/
def dsA : Dataset := ⟨["a"], some [0], fun _ => "", fun _ _ => [9]⟩

/-- A dataset carrying only alias `b` (values 7) at step 0. -/
def dsB : Dataset := ⟨["b"], some [0], fun _ => "", fun _ _ => [7]⟩

/-- A dataset carrying `tp` with stepType `accum` (values 5) at step 0. -/
def dsP : Dataset := ⟨["tp"], some [0], fun _ => "accum", fun _ _ => [5]⟩

/-- A dataset carrying cloud layers `lcc` (20) and `mcc` (50) at step 0,
with the pre-combined name absent. -/
def dsCloud : Dataset :=
  ⟨["lcc", "mcc"], some [0], fun _ => "",
   fun n _ => if n = "lcc" then [20] else [50]⟩

/-- A dataset declaring the unsorted step list [3, 1]. -/
def dsSteps : Dataset := ⟨["r"], some [3, 1], fun _ => "", fun _ _ => [1]⟩

/-- A dataset exposing no step coordinate. -/
def dsNoSteps : Dataset := ⟨["r"], none, fun _ => "", fun _ _ => [1]⟩

/-- A rendering task with the given frame index and artifact path and a
non-empty one-field bundle. -/
def mkTask (i : ℕ) (p : String) : RenderTask :=
  ⟨i, [("X", [1])], "", p⟩

/-- Tasks submitted with frame indices [2, 0, 1]. -/
def ceTasks : List RenderTask := [mkTask 2 "p2", mkTask 0 "p0", mkTask 1 "p1"]

/-- Completion order [1, 2, 0] over `ceTasks` (positions in the
submitted list). -/
def ceArrival : List (Fin ceTasks.length) :=
  [⟨1, by decide⟩, ⟨2, by decide⟩, ⟨0, by decide⟩]

/-- Tasks submitted with frame indices [0, 1, 2]. -/
def wTasks : List RenderTask := [mkTask 0 "q0", mkTask 1 "q1", mkTask 2 "q2"]

/-- An out-of-order completion over `wTasks`. -/
def wArrival : List (Fin wTasks.length) :=
  [⟨2, by decide⟩, ⟨0, by decide⟩, ⟨1, by decide⟩]

/-- An oracle whose rendering always succeeds. -/
def oracleOK : RenderTask → Except String Unit := fun _ => Except.ok ()

/-- Five tasks with frame indices 0..4 and paths p0..p4. -/
def batchTask (i : ℕ) : RenderTask := mkTask i ("p" ++ toString i)

/-- An oracle failing exactly on the task with frame index 3. -/
def oracleFail3 : RenderTask → Except String Unit := fun t =>
  if t.frame_index == 3 then Except.error "render failure" else Except.ok ()

/-! Helper lemmas (not themselves claim theorems). -/

/-- The inner alias loop returns the first alias, in priority order,
accepted at the fixed dataset. -/
theorem findAliasInDS_eq (ds : Dataset) (rst : Option String) (step : ℤ)
    (names : List String) :
    findAliasInDS ds rst step names
      = (names.find? (fun n => accepts ds n rst step)).bind
          (fun n => (selVar ds n step).map (fun g => (n, g))) := by
  induction names with
  | nil => rfl
  | cons n rest ih =>
    rw [findAliasInDS, List.find?_cons]
    cases h1 : hasVar ds n with
    | false => simp [accepts, h1, ih]
    | true =>
      cases h2 : stepNotAvailable ds step with
      | true => simp [accepts, h1, h2, ih]
      | false =>
        cases h3 : flowMismatch ds n rst with
        | true => simp [accepts, h1, h2, h3, ih]
        | false =>
          cases h4 : selVar ds n step with
          | none => simp [accepts, h1, h2, h3, h4, ih]
          | some g => simp [accepts, h1, h2, h3, h4]

/-- The standard scalar double loop returns the accepted pair of the
first dataset, in collection order, at which any alias is accepted. -/
theorem resolveStandard_eq (names : List String) (rst : Option String)
    (dss : List Dataset) (step : ℤ) :
    resolveStandard names rst dss step
      = (dss.find? (fun ds => names.any (fun n => accepts ds n rst step))).bind
          (fun ds => (names.find? (fun n => accepts ds n rst step)).bind
            (fun n => (selVar ds n step).map (fun g => (n, g)))) := by
  induction dss with
  | nil => rfl
  | cons ds rest ih =>
    rw [resolveStandard, findAliasInDS_eq, List.find?_cons]
    cases h : names.any (fun n => accepts ds n rst step) with
    | false =>
      have hf : names.find? (fun n => accepts ds n rst step) = none := by
        rw [List.find?_eq_none]
        intro x hx hc
        have : names.any (fun n => accepts ds n rst step) = true :=
          List.any_eq_true.2 ⟨x, hx, hc⟩
        rw [h] at this
        exact Bool.false_ne_true this
      simp [hf, ih]
    | true =>
      obtain ⟨n, hn, hacc⟩ := List.any_eq_true.1 h
      have hf : (names.find? (fun n => accepts ds n rst step)).isSome :=
        List.find?_isSome.2 ⟨n, hn, hacc⟩
      obtain ⟨m, hm⟩ := Option.isSome_iff_exists.1 hf
      have hacc2 : accepts ds m rst step = true :=
        @List.find?_some _ (fun n => accepts ds n rst step) m names hm
      have hsel : (selVar ds m step).isSome = true := by
        simp only [accepts, Bool.and_eq_true] at hacc2
        exact hacc2.2
      obtain ⟨g, hg⟩ := Option.isSome_iff_exists.1 hsel
      simp [hm, hg]

/-- Task emission consumes one counter per non-empty bundle. -/
theorem emitTasks_snd (sbs : List (ℤ × Bundle)) :
    ∀ c : ℕ, (emitTasks sbs c).2 = c + (emitTasks sbs c).1.length := by
  induction sbs with
  | nil => intro c; rfl
  | cons sb rest ih =>
    intro c
    obtain ⟨s, b⟩ := sb
    by_cases hb : b.isEmpty
    · simpa [emitTasks, hb] using ih c
    · have := ih (c + 1)
      simp only [emitTasks, if_neg hb]
      simp [this]
      omega

/-- Task emission assigns consecutive frame indices starting at the
incoming counter. -/
theorem emitTasks_map_idx (sbs : List (ℤ × Bundle)) :
    ∀ c : ℕ, (emitTasks sbs c).1.map (fun t => t.frame_index)
      = List.range' c (emitTasks sbs c).1.length := by
  induction sbs with
  | nil => intro c; rfl
  | cons sb rest ih =>
    intro c
    obtain ⟨s, b⟩ := sb
    by_cases hb : b.isEmpty
    · simpa [emitTasks, hb] using ih c
    · simp only [emitTasks, if_neg hb]
      simp only [List.map_cons, List.length_cons, List.range'_succ, ih (c + 1)]

/-- The bundles of the emitted tasks are the non-empty bundles, in
order, independently of the counter. -/
theorem emitTasks_map_plot (sbs : List (ℤ × Bundle)) :
    ∀ c : ℕ, (emitTasks sbs c).1.map (fun t => t.plot_data)
      = ((sbs.filter (fun sb => !sb.2.isEmpty)).map (fun sb => sb.2)) := by
  induction sbs with
  | nil => intro c; rfl
  | cons sb rest ih =>
    intro c
    obtain ⟨s, b⟩ := sb
    by_cases hb : b.isEmpty
    · simpa [emitTasks, List.filter_cons, hb] using ih c
    · simp only [emitTasks, if_neg hb]
      simp [List.filter_cons, hb, ih (c + 1)]

/-- The assembly loop threads the counter by the number of emitted
tasks. -/
theorem assembleFrom_snd (files : List (List Dataset)) :
    ∀ c : ℕ, (assembleFrom files c).2 = c + (assembleFrom files c).1.length := by
  induction files with
  | nil => intro c; rfl
  | cons f rest ih =>
    intro c
    simp only [assembleFrom, List.length_append]
    rw [emitTasks_snd (processFile f) c,
      ih (c + (emitTasks (processFile f) c).1.length)]
    omega

/-- The assembly loop assigns consecutive frame indices from the
incoming counter over all files. -/
theorem assembleFrom_map_idx (files : List (List Dataset)) :
    ∀ c : ℕ, (assembleFrom files c).1.map (fun t => t.frame_index)
      = List.range' c (assembleFrom files c).1.length := by
  induction files with
  | nil => intro c; rfl
  | cons f rest ih =>
    intro c
    simp only [assembleFrom, List.map_append, List.length_append]
    rw [emitTasks_map_idx, emitTasks_snd (processFile f) c] at *
    rw [ih ((c + (emitTasks (processFile f) c).1.length))]
    have := List.range'_append c (emitTasks (processFile f) c).1.length
      (assembleFrom rest (c + (emitTasks (processFile f) c).1.length)).1.length 1
    simp only [one_mul] at this
    rw [this, Nat.add_comm]

/-- The bundles of the assembled tasks are the non-empty bundles of the
files in processing order, independently of the counter. -/
theorem assembleFrom_map_plot (files : List (List Dataset)) :
    ∀ c : ℕ, (assembleFrom files c).1.map (fun t => t.plot_data)
      = files.flatMap
          (fun f => ((processFile f).filter (fun sb => !sb.2.isEmpty)).map
            (fun sb => sb.2)) := by
  induction files with
  | nil => intro c; rfl
  | cons f rest ih =>
    intro c
    simp only [assembleFrom, List.map_append, List.flatMap_cons]
    rw [emitTasks_map_plot, ih]

/-- The append-if-truthy loop over a result stream collects the doubly
present values in stream order. -/
theorem foldl_collect (l : List (Option (Option String))) :
    ∀ acc : List String,
    l.foldl
      (fun acc r =>
        match r with
        | some (some s) => acc ++ [s]
        | _ => acc) acc
      = acc ++ l.filterMap (fun r => r.bind id) := by
  induction l with
  | nil => intro acc; simp
  | cons r rest ih =>
    intro acc
    cases r with
    | none => simpa using ih acc
    | some o =>
      cases o with
      | none => simpa using ih acc
      | some s =>
        simp only [List.foldl_cons, List.filterMap_cons]
        rw [ih (acc ++ [s])]
        simp

/-- When every task index arrives, the buffered result found for an
index is that task's worker result. -/
theorem completions_find (worker : RenderTask → Option String)
    (tasks : List RenderTask) (arrival : List (Fin tasks.length))
    (hperm : (arrival.map Fin.val).Perm (List.range tasks.length))
    (i : ℕ) (hi : i < tasks.length) :
    (completions worker tasks arrival).find? (fun p => p.1 == i)
      = some (i, worker (tasks.get ⟨i, hi⟩)) := by
  have hmem : i ∈ arrival.map Fin.val := hperm.mem_iff.2 (List.mem_range.2 hi)
  obtain ⟨j, hj, hjv⟩ := List.mem_map.1 hmem
  have hjmem : (j.val, worker (tasks.get j)) ∈ completions worker tasks arrival :=
    List.mem_map_of_mem _ hj
  have hsome : ((completions worker tasks arrival).find? (fun p => p.1 == i)).isSome :=
    List.find?_isSome.2 ⟨_, hjmem, by simp [hjv]⟩
  obtain ⟨p, hp⟩ := Option.isSome_iff_exists.1 hsome
  have hpi : p.1 = i := by
    have := @List.find?_some _ (fun p => p.1 == i) p _ hp
    simpa using this
  have hpmem := List.mem_of_find?_eq_some hp
  obtain ⟨k, hk, hkp⟩ := List.mem_map.1 hpmem
  have hkv : k.val = i := by
    rw [← hkp] at hpi
    exact hpi
  have hkk : k = ⟨i, hi⟩ := Fin.ext hkv
  rw [hp, ← hkp, hkk]

/-- Under a complete arrival permutation, the imap consumer yields, for
each task index in submission order, that task's worker result. -/
theorem imapYield_completions (worker : RenderTask → Option String)
    (tasks : List RenderTask) (arrival : List (Fin tasks.length))
    (hperm : (arrival.map Fin.val).Perm (List.range tasks.length)) :
    imapYield tasks.length (completions worker tasks arrival)
      = (List.finRange tasks.length).map (fun i => some (worker (tasks.get i))) := by
  apply List.ext_getElem
  · simp [imapYield]
  · intro i h1 h2
    simp only [imapYield, List.getElem_map, List.getElem_range, List.getElem_finRange]
    have hi : i < tasks.length := by
      simpa [imapYield] using h1
    rw [completions_find worker tasks arrival hperm i hi]
    simp [List.get_eq_getElem]

/-- Membership characterization of the step union. -/
theorem mem_allSteps (dss : List Dataset) (x : ℤ) :
    x ∈ allSteps dss
      ↔ ∃ ds ∈ dss, ∃ ss, ds.step_coord = some ss ∧ x ∈ ss := by
  have haux : ∀ (l : List Dataset) (acc : Finset ℤ),
      (x ∈ l.foldl
        (fun acc ds =>
          match ds.step_coord with
          | some ss => acc ∪ ss.toFinset
          | none => acc) acc
      ↔ x ∈ acc ∨ ∃ ds ∈ l, ∃ ss, ds.step_coord = some ss ∧ x ∈ ss) := by
    intro l
    induction l with
    | nil => intro acc; simp
    | cons ds rest ih =>
      intro acc
      rw [List.foldl_cons]
      cases h : ds.step_coord with
      | none =>
        rw [ih]
        constructor
        · rintro (ha | hrest)
          · exact Or.inl ha
          · obtain ⟨d, hd, hss⟩ := hrest
            exact Or.inr ⟨d, List.mem_cons_of_mem ds hd, hss⟩
        · rintro (ha | ⟨d, hd, ss, hss, hx⟩)
          · exact Or.inl ha
          · rcases List.mem_cons.1 hd with rfl | hd2
            · rw [h] at hss
              exact absurd hss (by simp)
            · exact Or.inr ⟨d, hd2, ss, hss, hx⟩
      | some ss =>
        rw [ih]
        simp only [Finset.mem_union, List.mem_toFinset]
        constructor
        · rintro ((ha | hss2) | hrest)
          · exact Or.inl ha
          · exact Or.inr ⟨ds, List.mem_cons_self ds rest, ss, h, hss2⟩
          · obtain ⟨d, hd, hrest2⟩ := hrest
            exact Or.inr ⟨d, List.mem_cons_of_mem ds hd, hrest2⟩
        · rintro (ha | ⟨d, hd, ss2, hss2, hx⟩)
          · exact Or.inl (Or.inl ha)
          · rcases List.mem_cons.1 hd with rfl | hd2
            · rw [h] at hss2
              obtain rfl : ss = ss2 := by injection hss2
              exact Or.inl (Or.inr hx)
            · exact Or.inr ⟨d, hd2, ss2, hss2, hx⟩
  rw [allSteps, haux]
  simp

/-! Claim theorems. -/

/-- C1 (amended): the standard scalar resolver iterates the dataset
collection in collection order as the OUTER loop and the alias list in
priority order as the INNER loop: it returns the first accepted alias
of the first dataset at which any alias is accepted, acceptance
requiring the alias present, the step available, and — when a required
flow-type is declared — the flow-type attribute equal to it exactly; in
particular a wrong-flow-type occurrence is never selected (whenever a
result is returned under a required flow-type, the chosen alias's
attribute matches it in some dataset of the collection). Across
different datasets, collection order takes precedence over alias
priority. -/
theorem resolve_standard_scan_order (names : List String) (rst : Option String)
    (dss : List Dataset) (step : ℤ) :
    resolveStandard names rst dss step
      = (dss.find? (fun ds => names.any (fun n => accepts ds n rst step))).bind
          (fun ds => (names.find? (fun n => accepts ds n rst step)).bind
            (fun n => (selVar ds n step).map (fun g => (n, g))))
    ∧ (∀ (f : String) (n : String) (g : Grid), rst = some f →
        resolveStandard names rst dss step = some (n, g) →
        ∃ ds ∈ dss, ds.attr n = f ∧ selVar ds n step = some g) := by
  refine ⟨resolveStandard_eq names rst dss step, ?_⟩
  intro f n g hF hres
  rw [resolveStandard_eq] at hres
  cases hd : dss.find? (fun ds => names.any (fun n => accepts ds n rst step)) with
  | none =>
    rw [hd] at hres
    simp at hres
  | some ds =>
    rw [hd] at hres
    simp only [Option.some_bind] at hres
    cases hf : names.find? (fun n => accepts ds n rst step) with
    | none =>
      rw [hf] at hres
      simp at hres
    | some m =>
      rw [hf] at hres
      simp only [Option.some_bind] at hres
      cases hs : selVar ds m step with
      | none =>
        rw [hs] at hres
        simp at hres
      | some g2 =>
        rw [hs] at hres
        simp only [Option.map_some'] at hres
        have hmn : m = n ∧ g2 = g := by
          simpa using hres
        obtain ⟨rfl, rfl⟩ := hmn
        refine ⟨ds, List.mem_of_find?_eq_some hd, ?_, hs⟩
        have hacc := @List.find?_some _ (fun n => accepts ds n rst step) m names hf
        simp only [accepts, Bool.and_eq_true] at hacc
        have hfm : flowMismatch ds m rst = false := by
          simpa using hacc.1.2
        rw [hF] at hfm
        simp only [flowMismatch] at hfm
        simpa using hfm

/-- Witness for C1 at a concrete collection: the required flow-type
`accum` is matched by the selected alias. -/
theorem resolve_standard_scan_order_witness :
    ∃ ds ∈ [dsP], ds.attr "tp" = "accum" ∧ selVar ds "tp" 0 = some [5] :=
  (resolve_standard_scan_order ["tp"] (some "accum") [dsP] 0).2
    "accum" "tp" [5] rfl (by decide)

/-- Counterexample for C1 as stated: with alias priority [a, b] and
collection [dsB, dsA], the higher-priority alias `a` is present and
acceptable in dsA, yet resolution selects the lower-priority alias `b`
found in the earlier dataset — the higher-priority alias does NOT win
regardless of dataset order, because the dataset loop is the outer
one. -/
theorem resolve_standard_alias_priority_counterexample :
    resolveStandard ["a", "b"] none [dsB, dsA] 0 = some ("b", [7])
    ∧ accepts dsA "a" none 0 = true
    ∧ some ("b", ([7] : Grid)) ≠ some ("a", ([9] : Grid)) := by
  decide

/-- C2 (code bug): on a collection whose only cloud data are the layers
`lcc` = 20 and `mcc` = 50 at the step (the pre-combined name absent
everywhere), the script resolves Cloud Cover to the single `lcc` layer
(20) — because the layer names sit in the alias list of the standard
scan, which finds `lcc` before the combination fallback can run — while
the documented layer-combination policy (modelled by resolveCloudSpec)
yields the elementwise maximum 50. -/
theorem cloud_cover_layer_bug :
    resolveCloud [dsCloud] 0 = some [20]
    ∧ resolveCloudSpec [dsCloud] 0 = some [50] := by
  decide

/-- C3: with a previously recorded raw value, the accumulation tracker
emits the elementwise difference of the raw value and the previous raw
value with negative entries clamped to zero, and stores the raw value
itself (never the delta); the per-file raw sequence [0, 5, 5, 12]
yields deltas [0, 5, 0, 7] and the sequence [10, 4] yields a clamped
second delta of 0. -/
theorem accumulation_delta_clamped :
    (∀ p r : Grid, accumStep (some p) r
      = (List.zipWith (fun c q => max (c - q) 0) r p, r))
    ∧ runAccumDeltas none [[0], [5], [5], [12]] = [[0], [5], [0], [7]]
    ∧ runAccumDeltas none [[10], [4]] = [[0], [0]] := by
  refine ⟨fun p r => ?_, by norm_num [runAccumDeltas, accumStep],
    by norm_num [runAccumDeltas, accumStep]⟩
  simp only [accumStep]
  have hfun : (fun c q : ℚ => if c - q < 0 then 0 else c - q)
      = fun c q : ℚ => max (c - q) 0 := by
    funext c q
    rcases lt_or_ge (c - q) 0 with h | h
    · rw [if_pos h, max_eq_right h.le]
    · rw [if_neg (not_lt.2 h), max_eq_left h]
  rw [hfun]

/-- C4: the accumulation state is scoped to a single file — each file's
emitted bundles are computed from the empty state created for that
file, so processing a file after any list of earlier files yields
exactly the bundles of processing it alone; nothing is carried across
files, and the first accumulation step of the next file is again a
first occurrence. -/
theorem accumulation_state_file_scope (fs : List (List Dataset)) (f : List Dataset) :
    (assembleTasks (fs ++ [f])).map (fun t => t.plot_data)
      = (assembleTasks fs).map (fun t => t.plot_data)
        ++ (assembleTasks [f]).map (fun t => t.plot_data) := by
  rw [assembleTasks, assembleTasks, assembleTasks, assembleFrom_map_plot,
    assembleFrom_map_plot, assembleFrom_map_plot, List.flatMap_append]

/-- C5 (amended): the scheduler does not re-sort results by
frame_index; it emits them in SUBMISSION order: for every task list,
worker, and complete arrival permutation, the emitted sequence equals
the in-order filtered map of the worker over the task list — so
completion order never leaks into output order, no-artifact results are
dropped without failing the batch, and since `main` submits its tasks
in ascending frame_index order (frame_index equals list position) the
program's own output is frame_index-ordered; but a task list submitted
out of frame_index order is NOT re-ordered. -/
theorem scheduler_emits_submission_order (worker : RenderTask → Option String)
    (tasks : List RenderTask) (arrival : List (Fin tasks.length))
    (hperm : (arrival.map Fin.val).Perm (List.range tasks.length)) :
    schedulerEmit worker tasks arrival = tasks.filterMap worker := by
  rw [schedulerEmit, foldl_collect, imapYield_completions worker tasks arrival hperm,
    List.nil_append]
  conv_rhs => rw [← List.finRange_map_get tasks]
  rw [List.filterMap_map, List.filterMap_map]
  rfl

/-- Witness for C5 on a concrete batch completing out of order. -/
theorem scheduler_emits_submission_order_witness :
    schedulerEmit (renderFrameTask oracleOK) wTasks wArrival = ["q0", "q1", "q2"] := by
  rw [scheduler_emits_submission_order (renderFrameTask oracleOK) wTasks wArrival
    (by decide)]
  decide

/-- Counterexample for C5 as stated: tasks submitted with frame indices
[2, 0, 1] and completing in order [1, 2, 0] are emitted as
["p2", "p0", "p1"] — the submission order — not in the frame_index
order ["p0", "p1", "p2"] the claim requires. -/
theorem scheduler_order_counterexample :
    ceTasks.map (fun t => t.frame_index) = [2, 0, 1]
    ∧ schedulerEmit (renderFrameTask oracleOK) ceTasks ceArrival = ["p2", "p0", "p1"]
    ∧ (["p2", "p0", "p1"] : List String) ≠ ["p0", "p1", "p2"] := by
  decide

/-- C6: a failure of the fallible rendering is caught inside the worker
and reported as the no-artifact sentinel, never propagated (the worker
is a total function into Option); a 5-task batch whose task of frame
index 3 fails yields exactly the four successful artifact paths, in
order, and the batch never raises. -/
theorem render_failure_contained (oracle : RenderTask → Except String Unit)
    (t0 t1 t2 t3 t4 : RenderTask) (e : String)
    (h0 : t0.plot_data.isEmpty = false) (h1 : t1.plot_data.isEmpty = false)
    (h2 : t2.plot_data.isEmpty = false) (h3 : t3.plot_data.isEmpty = false)
    (h4 : t4.plot_data.isEmpty = false)
    (k0 : oracle t0 = Except.ok ()) (k1 : oracle t1 = Except.ok ())
    (k2 : oracle t2 = Except.ok ()) (k4 : oracle t4 = Except.ok ())
    (k3 : oracle t3 = Except.error e) :
    renderFrameTask oracle t3 = none
    ∧ runBatch oracle [t0, t1, t2, t3, t4]
      = [t0.output_path, t1.output_path, t2.output_path, t4.output_path] := by
  constructor
  · simp [renderFrameTask, h3, k3]
  · simp [runBatch, renderFrameTask, h0, h1, h2, h3, h4, k0, k1, k2, k3, k4]

/-- Witness for C6 on a concrete 5-task batch with a concrete failing
oracle. -/
theorem render_failure_contained_witness :
    renderFrameTask oracleFail3 (batchTask 3) = none
    ∧ runBatch oracleFail3
        [batchTask 0, batchTask 1, batchTask 2, batchTask 3, batchTask 4]
      = ["p0", "p1", "p2", "p4"] := by
  have h := render_failure_contained oracleFail3 (batchTask 0) (batchTask 1)
    (batchTask 2) (batchTask 3) (batchTask 4) "render failure"
    (by decide) (by decide) (by decide) (by decide) (by decide)
    rfl rfl rfl rfl rfl
  exact ⟨h.1, by rw [h.2]; decide⟩

/-- C7: frame indices are assigned once, in the single-threaded
assembly phase before any parallel work: the index list of the
assembled tasks is exactly 0, 1, 2, ... in assembly order (hence
strictly increasing over files in processing order and steps ascending
within a file), and the task bundles are exactly the non-empty bundles
of that traversal — an empty bundle produces no task and consumes no
index; nothing is recomputed from completion order. -/
theorem frame_index_assignment (files : List (List Dataset)) :
    (assembleTasks files).map (fun t => t.frame_index)
      = List.range (assembleTasks files).length
    ∧ (assembleTasks files).map (fun t => t.plot_data)
      = files.flatMap
          (fun f => ((processFile f).filter (fun sb => !sb.2.isEmpty)).map
            (fun sb => sb.2)) := by
  constructor
  · rw [assembleTasks, assembleFrom_map_idx, List.range_eq_range']
  · rw [assembleTasks, assembleFrom_map_plot]

/-- C8: the unit normalizer is a pure function of the field decided by
its elementwise mean: a temperature-like field with mean above 200 is
shifted down by 273.15 elementwise and passes through unchanged
otherwise (mean 300 maps to 26.85, mean 26.85 is unchanged); a
pressure-like field with mean above 80000 is divided by 100 elementwise
and passes through unchanged otherwise. -/
theorem unit_normalizer_heuristic (g : Grid) :
    (meanQ g > 200 → applyConvert (some ConvTag.kelvinIfOver200) g
      = g.map (fun x => x - 273.15))
    ∧ (¬ meanQ g > 200 → applyConvert (some ConvTag.kelvinIfOver200) g = g)
    ∧ (meanQ g > 80000 → applyConvert (some ConvTag.pascalIfOver80000) g
      = g.map (fun x => x / 100))
    ∧ (¬ meanQ g > 80000 → applyConvert (some ConvTag.pascalIfOver80000) g = g)
    ∧ applyConvert (some ConvTag.kelvinIfOver200) [300] = [26.85]
    ∧ applyConvert (some ConvTag.kelvinIfOver200) [26.85] = [26.85] := by
  refine ⟨fun h => by simp [applyConvert, h], fun h => by simp [applyConvert, h],
    fun h => by simp [applyConvert, h], fun h => by simp [applyConvert, h],
    by norm_num [applyConvert, meanQ], by norm_num [applyConvert, meanQ]⟩

/-- Witness for C8 at the concrete field [300]. -/
theorem unit_normalizer_heuristic_witness :
    meanQ [(300 : ℚ)] > 200
    ∧ applyConvert (some ConvTag.kelvinIfOver200) [(300 : ℚ)]
      = [(300 : ℚ)].map (fun x => x - 273.15) := by
  have h : meanQ [(300 : ℚ)] > 200 := by norm_num [meanQ]
  exact ⟨h, (unit_normalizer_heuristic [(300 : ℚ)]).1 h⟩

/-- C9: the step enumerator returns a list sorted ascending; when the
union of declared steps is non-empty its members are exactly the step
offsets declared by some dataset exposing a step dimension; when no
step is declared it returns the single default step of offset zero. -/
theorem step_enumeration_spec (dss : List Dataset) :
    List.Sorted (· ≤ ·) (enumerateSteps dss)
    ∧ (allSteps dss ≠ ∅ → ∀ x : ℤ,
        x ∈ enumerateSteps dss ↔ ∃ ds ∈ dss, ∃ ss, ds.step_coord = some ss ∧ x ∈ ss)
    ∧ (allSteps dss = ∅ → enumerateSteps dss = [0]) := by
  refine ⟨?_, ?_, ?_⟩
  · rw [enumerateSteps]
    split
    · simp
    · exact Finset.sort_sorted _ _
  · intro hne x
    rw [enumerateSteps, if_neg hne, Finset.mem_sort]
    exact mem_allSteps dss x
  · intro he
    rw [enumerateSteps, if_pos he]

/-- Witness for C9: a dataset with no step coordinate yields the
default step, and a declared step is a member of the enumeration. -/
theorem step_enumeration_spec_witness :
    enumerateSteps [dsNoSteps] = [0] ∧ (3 : ℤ) ∈ enumerateSteps [dsSteps] := by
  refine ⟨(step_enumeration_spec [dsNoSteps]).2.2 (by decide), ?_⟩
  exact ((step_enumeration_spec [dsSteps]).2.1 (by decide) 3).2
    ⟨dsSteps, by simp, [3, 1], rfl, by decide⟩

/-- C10: on the first occurrence of an accumulation-flagged variable in
a file, the tracker emits a zero-filled delta of the same shape as the
raw value and sets the stored state to the raw value itself; at the
bundle level the variable is included with the zero field rather than
omitted (concrete file with `tp` = [5] at its first step). -/
theorem accumulation_first_occurrence_zero :
    (∀ r : Grid, accumStep none r = (List.replicate r.length 0, r))
    ∧ buildStep [dsP] 0 [] = ([("Precipitation", [0])], [("Precipitation", [5])]) := by
  refine ⟨fun r => ?_, by decide⟩
  simp only [accumStep]
  rw [List.map_const']

end GPV
